import Mathlib

/-!
Verification of the validation subsystem of a release builder
(`pkg/validate/validate.go`): the generic path resolver over untyped
YAML-like documents, the hub/tag checks, the docker image-set check, the
dashboard parity check, and the check runner's aggregation contract.

Shallow embedding conventions:
* Go's `interface{}` values occurring in parsed YAML documents become the
  inductive `Value`; a `map[string]interface{}` is an association list
  (the documents under test have distinct keys).
* A missing key in a Go map yields the nil interface; in a Go type switch
  the nil interface matches no concrete type case and falls to `default`.
  The embedding models a lookup as `Option Value`, with `none` playing the
  nil interface (its `%T` rendering is the string shown by the constant
  `nilTypeName`).
* Go panics (out-of-range list indexing) are the explicit outcome
  `PathOutcome.panic` / `CheckRes.panic`, so the embedding is total.
* Filesystem reads and external commands (helm, tar, docker) are
  parameters: a directory listing is a `List String`, a command or file
  read that can fail is an `Except String _` argument.
-/

/-- Untyped document value, as produced by parsing YAML into
`map[string]interface{}`: string leaves, nested mappings, lists, and
anything else (numbers, booleans, ...). `other` carries the Go dynamic
type name that `%T` would print for it, e.g. `"float64"`. -/
inductive Value where
  | str : String → Value
  | map : List (String × Value) → Value
  | list : List Value → Value
  | other : String → Value

/-- The `%T` rendering of the nil interface in Go. -/
def nilTypeName : String := "<nil>"

/-- The Go dynamic type name of an optional value (`none` = nil interface). -/
def typeNameOf : Option Value → String
  | none => nilTypeName
  | some (.str _) => "string"
  | some (.map _) => "map[string]interface {}"
  | some (.list _) => "[]interface {}"
  | some (.other t) => t

/-- Go map lookup `current[p]` on an association list: `none` is the nil
interface returned for an absent key. -/
def lookupKey : List (String × Value) → String → Option Value
  | [], _ => none
  | (k, v) :: rest, p => if k = p then some v else lookupKey rest p

/-- Digits of a decimal number: `none` if empty or any non-digit. -/
def digitsToNat : List Char → Option Nat
  | [] => none
  | cs => cs.foldl (fun acc c =>
      acc.bind fun n => if c.isDigit then some (n * 10 + (c.toNat - 48)) else none)
      (some 0)

/-- Model of Go `strconv.Atoi`: optional sign followed by at least one
decimal digit (overflow is irrelevant at the sizes that occur here). -/
def goAtoi (s : String) : Option Int :=
  match s.toList with
  | '+' :: rest => (digitsToNat rest).map Int.ofNat
  | '-' :: rest => (digitsToNat rest).map (fun n => -(n : Int))
  | l => (digitsToNat l).map Int.ofNat

/-- Structured form of the two error returns of `GenericMap.Path`:
`invalidPath` is `"list requires integer path: %v in %v"`,
`unexpectedType` is `"expected map or string, got %T for %v in %v"`
(type name, segment, full path). -/
inductive PathError where
  | invalidPath (seg : String) (path : List String)
  | unexpectedType (typeName : String) (seg : String) (path : List String)
deriving DecidableEq

/-- Outcome of `GenericMap.Path`. The Go function returns
`(interface{}, error)`; the only non-error values it produces are a string
(`ok (some s)`) and nil (`ok none`). `panic` is the out-of-range list
index `tmpList[i]`, which panics in Go. -/
inductive PathOutcome where
  | ok : Option String → PathOutcome
  | err : PathError → PathOutcome
  | panic : PathOutcome
deriving DecidableEq

/-- The loop body of `GenericMap.Path`: `current` is the current mapping,
`tmpList` the pending list set by a previous list value, `fullPath` the
whole path (used only in error messages). Mirrors the Go loop: when a list
is pending the segment is parsed as an integer index into it (no bounds or
sign check in Go — out of range panics); otherwise the segment is looked
up in `current`, and the value is classified: string returns, map becomes
`current`, list becomes pending, anything else (including the nil of an
absent key) errors. -/
def pathGo (fullPath : List String) :
    List (String × Value) → Option (List Value) → List String → PathOutcome
  | _, _, [] => .ok none
  | current, tmpList, p :: rest =>
    let step : Option Value → PathOutcome := fun val =>
      match val with
      | some (.str s) => .ok (some s)
      | some (.map m) => pathGo fullPath m none rest
      | some (.list l) => pathGo fullPath current (some l) rest
      | v => .err (.unexpectedType (typeNameOf v) p fullPath)
    match tmpList with
    | none => step (lookupKey current p)
    | some l =>
      match goAtoi p with
      | none => .err (.invalidPath p fullPath)
      | some i =>
        if h : 0 ≤ i ∧ i.toNat < l.length then
          step (some (l.get ⟨i.toNat, h.2⟩))
        else
          .panic

/-- `GenericMap.Path`: resolve a path against a document root. -/
def GenericMap.Path (g : List (String × Value)) (path : List String) : PathOutcome :=
  pathGo path g none path

/-! ## The checks -/

/-- The fields of `ReleaseInfo` / `model.Manifest` that the embedded checks
read: `Version`, `Docker` (the hub), `Architectures`, and the key set of
`GrafanaDashboards`. -/
structure ReleaseInfo where
  version : String
  docker : String
  architectures : List String
  dashboards : List String

/-- Result of one validation function: `ok` is a nil error return, `fail`
carries the error message, `panic` propagates a Go panic from
`GenericMap.Path`. -/
inductive CheckRes where
  | ok
  | fail (msg : String)
  | panic
deriving DecidableEq

/-- Model of Go `strings.Split(s, ".")`: `""` splits to `[""]`. -/
def splitDotAux : List Char → List Char → List String
  | [], acc => [String.mk acc.reverse]
  | c :: rest, acc =>
    if c = '.' then String.mk acc.reverse :: splitDotAux rest []
    else splitDotAux rest (c :: acc)

def splitDot (s : String) : List String := splitDotAux s.toList []

/-- Go `%v` rendering of the `interface{}` result of a path lookup:
a string prints itself, nil prints `<nil>`. -/
def showPathValue : Option String → String
  | some s => s
  | none => "<nil>"

/-- Rendering of a `PathError` exactly as `fmt.Errorf` formats it, with a
path printed `[a b]`. -/
def pathErrString : PathError → String
  | .invalidPath seg path =>
    "list requires integer path: " ++ seg ++ " in [" ++ String.intercalate " " path ++ "]"
  | .unexpectedType t seg path =>
    "expected map or string, got " ++ t ++ " for " ++ seg ++ " in ["
      ++ String.intercalate " " path ++ "]"

/-- `validateHubTag` over an already-parsed values document (the Go
function parses `valuesBytes` first; parse failures are folded into the
callers' document-producing parameters). Resolves `<paths split on '.'>
++ ["tag"]` — just `["tag"]` when `paths` is empty — compares to the
manifest version, then does the same for `"hub"` against the manifest
docker hub. A resolution error is wrapped `"invalid path: ..."`; a
mismatch reports got/expected. -/
def validateHubTag (r : ReleaseInfo) (values : List (String × Value)) (paths : String) :
    CheckRes :=
  let tagPath := if paths = "" then ["tag"] else splitDot paths ++ ["tag"]
  match GenericMap.Path values tagPath with
  | .panic => .panic
  | .err e => .fail ("invalid path: " ++ pathErrString e)
  | .ok tag =>
    if tag ≠ some r.version then
      .fail ("archive tag incorrect: got " ++ showPathValue tag ++ " expected " ++ r.version)
    else
      let hubPath := if paths = "" then ["hub"] else splitDot paths ++ ["hub"]
      match GenericMap.Path values hubPath with
      | .panic => .panic
      | .err e => .fail ("invalid path: " ++ pathErrString e)
      | .ok hub =>
        if hub ≠ some r.docker then
          .fail ("hub incorrect: got " ++ showPathValue hub ++ " expected " ++ r.docker)
        else .ok

/-- The `expected` chart → values-sub-path table of `TestHelmChartVersions`
(Go iterates it as a map in unspecified order; the list order here is the
source order). -/
def helmChartExpected : List (String × String) :=
  [("cni", "_internal_defaults_do_not_set.global"),
   ("ztunnel", "_internal_defaults_do_not_set"),
   ("istiod", "_internal_defaults_do_not_set.global"),
   ("base", "none"),
   ("gateway", "none")]

/-- Loop body of `TestHelmChartVersions`: `chartValues chart` stands for
`helm show values <chart>-<version>.tgz` followed by YAML parsing (either
failure surfaces as `helm show: ...` — the Go code runs helm before the
`"none"` skip test). A `validateHubTag` failure is wrapped with the chart
name. -/
def helmChartLoop (r : ReleaseInfo)
    (chartValues : String → Except String (List (String × Value))) :
    List (String × String) → CheckRes
  | [] => .ok
  | (chart, path) :: rest =>
    match chartValues chart with
    | .error e => .fail ("helm show: " ++ e)
    | .ok doc =>
      if path = "none" then helmChartLoop r chartValues rest
      else
        match validateHubTag r doc path with
        | .ok => helmChartLoop r chartValues rest
        | .fail m => .fail (chart ++ ": " ++ m)
        | .panic => .panic

/-- `TestHelmChartVersions`: skipped (success) when the manifest version is
not valid semver; the semver predicate lives outside `src` and is passed
as the parameter `isValidSemver`. -/
def TestHelmChartVersions (isValidSemver : String → Bool) (r : ReleaseInfo)
    (chartValues : String → Except String (List (String × Value))) : CheckRes :=
  if !isValidSemver r.version then .ok
  else helmChartLoop r chartValues helmChartExpected

/-- The `manifestValues` file list of `TestHelmVersionsIstio`. -/
def helmIstioManifestValues : List String :=
  ["manifests/charts/gateways/istio-egress/values.yaml",
   "manifests/charts/gateways/istio-ingress/values.yaml",
   "manifests/charts/istio-cni/values.yaml",
   "manifests/charts/istio-control/istio-discovery/values.yaml"]

/-- The `topLevel` file list of `TestHelmVersionsIstio`. -/
def helmIstioTopLevel : List String := ["manifests/charts/ztunnel/values.yaml"]

/-- `validateHubTagFromFile`: `fileValues file` stands for reading and
parsing the values file from the unpacked archive (either failure is
returned unwrapped). -/
def validateHubTagFromFile (r : ReleaseInfo)
    (fileValues : String → Except String (List (String × Value)))
    (file paths : String) : CheckRes :=
  match fileValues file with
  | .error e => .fail e
  | .ok doc => validateHubTag r doc paths

/-- One of the two file loops of `TestHelmVersionsIstio`: first failing
file wins. -/
def helmIstioLoop (r : ReleaseInfo)
    (fileValues : String → Except String (List (String × Value)))
    (paths : String) : List String → CheckRes
  | [] => .ok
  | f :: rest =>
    match validateHubTagFromFile r fileValues f paths with
    | .ok => helmIstioLoop r fileValues paths rest
    | res => res

/-- `TestHelmVersionsIstio`: hub/tag validation of the source-tree values
files, with no semver gate — the two fixed file groups use the
`..._do_not_set.global` and `..._do_not_set` sub-path prefixes. -/
def TestHelmVersionsIstio (r : ReleaseInfo)
    (fileValues : String → Except String (List (String × Value))) : CheckRes :=
  match helmIstioLoop r fileValues "_internal_defaults_do_not_set.global"
      helmIstioManifestValues with
  | .ok => helmIstioLoop r fileValues "_internal_defaults_do_not_set" helmIstioTopLevel
  | res => res

/-- The `expected` image basename list of `TestDocker`. -/
def dockerExpectedImages : List String :=
  ["pilot-distroless", "pilot-debug", "install-cni-debug", "ztunnel-debug",
   "ztunnel-distroless", "proxyv2-debug", "proxyv2-distroless"]

/-- The `after` component of Go `strings.Cut(s, "/")`: everything after the
first `/`, or `""` when there is none. -/
def cutAfterSlashAux : List Char → String
  | [] => ""
  | c :: rest => if c = '/' then String.mk rest else cutAfterSlashAux rest

def goCutAfterSlash (s : String) : String := cutAfterSlashAux s.toList

/-- The arch suffix `TestDocker` appends to an image basename for a
platform string: empty for the default arch `amd64`, `-<arch>` otherwise. -/
def dockerSuffix (plat : String) : String :=
  let arch := goCutAfterSlash plat
  if arch = "amd64" then "" else "-" ++ arch

/-- A loose rendering of the `found` set in the failure message (Go prints
the `map[string]struct{}` with `%v`, in unspecified key order; no claim
depends on this text). -/
def renderFound (files : List String) : String :=
  "map[" ++ String.intercalate " " files ++ "]"

/-- Inner loop of `TestDocker`: for one arch suffix, require every expected
image tarball `<basename><suffix>.tar.gz` to be among the docker dir
entries, failing at the first absent one. -/
def dockerImagesLoop (files : List String) (suffix : String) : List String → CheckRes
  | [] => .ok
  | i :: rest =>
    let image := i ++ suffix ++ ".tar.gz"
    if files.contains image then dockerImagesLoop files suffix rest
    else .fail ("expected docker image " ++ image ++ ", but had " ++ renderFound files)

/-- Outer loop of `TestDocker` over the manifest architectures. -/
def dockerArchLoop (files : List String) : List String → CheckRes
  | [] => .ok
  | plat :: rest =>
    match dockerImagesLoop files (dockerSuffix plat) dockerExpectedImages with
    | .ok => dockerArchLoop files rest
    | res => res

/-- `TestDocker`: `dockerDir` stands for reading the `docker/` directory of
the release (its entry names). -/
def TestDocker (r : ReleaseInfo) (dockerDir : Except String (List String)) : CheckRes :=
  match dockerDir with
  | .error e => .fail ("failed to read docker dir: " ++ e)
  | .ok files => dockerArchLoop files r.architectures

/-- Model of Go `strings.TrimSuffix(name, ".json")`. -/
def trimJsonSuffix (s : String) : String :=
  let cs := s.toList
  if List.isSuffixOf ['.', 'j', 's', 'o', 'n'] cs then String.mk (cs.take (cs.length - 5))
  else s

/-- `reflect.DeepEqual` on two `map[string]struct{}` sets built from these
key lists: true iff the key sets coincide. -/
def listSetEq (a b : List String) : Bool :=
  a.all (fun x => b.contains x) && b.all (fun x => a.contains x)

/-- `TestGrafana`: `grafanaDir` stands for reading the `grafana/` directory
of the release; its entry stems (names with a `.json` suffix trimmed) must
be set-equal to the manifest's dashboard names. -/
def TestGrafana (r : ReleaseInfo) (grafanaDir : Except String (List String)) : CheckRes :=
  match grafanaDir with
  | .error e => .fail e
  | .ok files =>
    let created := files.map trimJsonSuffix
    if listSetEq created r.dashboards then .ok
    else .fail ("dashboards out of sync, release contains " ++ renderFound created
      ++ ", manifest contains " ++ renderFound r.dashboards)

/-! ## The check runner -/

/-- The aggregation loop of `CheckRelease`: run every check of the list
against the same release info, collecting the names of the succeeding
checks and, for each failing check, its message wrapped as
`check <name> failed: <msg>` — no short-circuit. A check is an arbitrary
function to an optional error message (`none` = success). The recursion
produces the two lists in iteration order (Go iterates its `checks` map in
unspecified order; the list argument fixes one). -/
def runChecks {R : Type} (r : R) : List (String × (R → Option String)) → List String × List String
  | [] => ([], [])
  | (name, check) :: rest =>
    let res := runChecks r rest
    match check r with
    | none => (name :: res.1, res.2)
    | some msg => (res.1, ("check " ++ name ++ " failed: " ++ msg) :: res.2)

/-- The diagnostic report of `CheckRelease`: empty when no check failed,
otherwise the header embedding the formatted release info followed by the
two best-effort file listings (the listings, produced by filesystem walks,
are parameters). -/
def checkReport (releaseInfoDump releaseListing archiveListing : String)
    (errors : List String) : String :=
  if errors.length > 0 then
    "Checks failed. Release info: " ++ releaseInfoDump ++ "Files in release: \n"
      ++ releaseListing ++ "\nFiles in archive: \n" ++ archiveListing
  else ""

/-! ## Claims about the path resolver -/

/-- C1 (counterexample): resolving `{"a": {}}` along `["a", "b"]` does not
yield an empty, error-free result — the absent key `"b"` produces the nil
interface, which falls through the type switch to the error default. -/
theorem c1_counterexample :
    ¬ GenericMap.Path [("a", Value.map [])] ["a", "b"] = .ok none := by decide

/-- C1 (amended): resolving a path segment whose key is absent from the
current mapping (no list pending) yields an `UnexpectedType` error naming
the segment, the nil type `<nil>`, and the full path — not an empty
result; in particular `{"a": {}}` with path `["a", "b"]` errors. -/
theorem c1_missing_key_is_error :
    (∀ (fullPath : List String) (current : List (String × Value)) (p : String)
        (rest : List String), lookupKey current p = none →
        pathGo fullPath current none (p :: rest)
          = .err (.unexpectedType nilTypeName p fullPath))
    ∧ GenericMap.Path [("a", Value.map [])] ["a", "b"]
        = .err (.unexpectedType nilTypeName "b" ["a", "b"]) := by
  refine ⟨fun fullPath current p rest h => ?_, by decide⟩
  simp [pathGo, h, typeNameOf]

/-- C1 (witness for the amended theorem): the empty mapping at the root has
no key `"z"`, so the very first segment already errors with `<nil>`. -/
theorem c1_missing_key_is_error_witness :
    pathGo ["z"] [] none ["z"] = .err (.unexpectedType nilTypeName "z" ["z"]) :=
  c1_missing_key_is_error.1 ["z"] [] "z" [] rfl

/-- C2 (counterexample): on `{"a": 5}` (a numeric leaf parses as a
`float64`) with path `["a", "b"]`, the error names segment `"a"` — the
segment whose looked-up value had the unexpected type — and `"a" ≠ "b"`,
so the error does not name `"b"` as claimed. -/
theorem c2_counterexample :
    GenericMap.Path [("a", Value.other "float64")] ["a", "b"]
        = .err (.unexpectedType "float64" "a" ["a", "b"])
    ∧ ("a" : String) ≠ "b" := by decide

/-- C2 (amended): on `{"a": 5}` with path `["a", "b"]`, resolution fails
with an `UnexpectedType` error naming the segment `"a"` (the one whose
value is the numeric leaf), the actual dynamic type encountered, and the
full path. -/
theorem c2_numeric_leaf_error :
    GenericMap.Path [("a", Value.other "float64")] ["a", "b"]
      = .err (.unexpectedType "float64" "a" ["a", "b"]) := by decide

/-- C3: after a list value, the next segment is an index: on
`{"a": [{"tag": "x"}, {"tag": "y"}]}` the path `["a", "1", "tag"]`
resolves to `"y"` with no error. -/
theorem c3_list_index :
    GenericMap.Path
      [("a", Value.list [Value.map [("tag", Value.str "x")],
                         Value.map [("tag", Value.str "y")]])]
      ["a", "1", "tag"] = .ok (some "y") := by decide

/-- C4: the two non-error terminations of `Path`: exhausted segments yield
`ok none` (the Go `nil, nil`), and a string value — whether found as a map
entry or as a list element — returns immediately as the final result even
with segments remaining. -/
theorem c4_terminal_results :
    (∀ (fullPath : List String) (current : List (String × Value))
        (tmpList : Option (List Value)), pathGo fullPath current tmpList [] = .ok none)
    ∧ (∀ (fullPath : List String) (current : List (String × Value)) (p : String)
        (rest : List String) (s : String), lookupKey current p = some (Value.str s) →
        pathGo fullPath current none (p :: rest) = .ok (some s))
    ∧ (∀ (fullPath : List String) (current : List (String × Value)) (l : List Value)
        (p : String) (rest : List String) (i : Nat) (s : String) (h : i < l.length),
        goAtoi p = some (Int.ofNat i) → l.get ⟨i, h⟩ = Value.str s →
        pathGo fullPath current (some l) (p :: rest) = .ok (some s)) := by
  refine ⟨fun fullPath current tmpList => rfl,
    fun fullPath current p rest s h => by simp [pathGo, h],
    fun fullPath current l p rest i s h hAtoi hGet => ?_⟩
  have hc : 0 ≤ Int.ofNat i ∧ (Int.ofNat i).toNat < l.length :=
    ⟨Int.ofNat_nonneg i, by simpa using h⟩
  have hGet' : l[i] = Value.str s := by simpa using hGet
  simp [pathGo, hAtoi, hc, h, hGet']

/-- C4 (witness): a one-entry document with a string value under `"k"`
returns that string immediately, with the segment `"z"` unconsumed. -/
theorem c4_terminal_results_witness :
    pathGo ["k", "z"] [("k", Value.str "v")] none ["k", "z"] = .ok (some "v") :=
  c4_terminal_results.2.1 ["k", "z"] [("k", Value.str "v")] "k" ["z"] "v" rfl

/-- C10: the list-index branch checks only integer parsing: a non-integer
segment is an `InvalidPath`-style error, while a segment that parses gets
used to index the pending list with no bounds or sign check — both an
index past the end and a negative index reach the out-of-bounds branch
(a panic in Go). -/
theorem c10_unchecked_list_index :
    GenericMap.Path [("a", Value.list [])] ["a", "0"] = .panic
    ∧ GenericMap.Path [("a", Value.list [Value.str "x"])] ["a", "-1"] = .panic
    ∧ GenericMap.Path [("a", Value.list [Value.str "x"])] ["a", "b"]
        = .err (.invalidPath "b" ["a", "b"]) := by decide

/-! ## Claims about the runner -/

theorem runChecks_fst {R : Type} (r : R) (checks : List (String × (R → Option String))) :
    (runChecks r checks).1 = (checks.filter (fun c => ((c.2) r).isNone)).map Prod.fst := by
  induction checks with
  | nil => rfl
  | cons c rest ih =>
    obtain ⟨name, check⟩ := c
    cases hc : check r <;> simp [runChecks, hc, ih, List.filter_cons]

theorem runChecks_snd {R : Type} (r : R) (checks : List (String × (R → Option String))) :
    (runChecks r checks).2 = checks.filterMap
      (fun c => ((c.2) r).map (fun msg => "check " ++ c.1 ++ " failed: " ++ msg)) := by
  induction checks with
  | nil => rfl
  | cons c rest ih =>
    obtain ⟨name, check⟩ := c
    cases hc : check r <;> simp [runChecks, hc, ih, List.filterMap_cons]

theorem runChecks_length_add {R : Type} (r : R)
    (checks : List (String × (R → Option String))) :
    (runChecks r checks).1.length + (runChecks r checks).2.length = checks.length := by
  induction checks with
  | nil => rfl
  | cons c rest ih =>
    obtain ⟨name, check⟩ := c
    cases hc : check r <;> simp [runChecks, hc] <;> omega

theorem runChecks_snd_length {R : Type} (r : R)
    (checks : List (String × (R → Option String))) :
    (runChecks r checks).2.length = (checks.filter (fun c => ((c.2) r).isSome)).length := by
  induction checks with
  | nil => rfl
  | cons c rest ih =>
    obtain ⟨name, check⟩ := c
    cases hc : check r <;> simp [runChecks, hc, ih, List.filter_cons]

theorem checkReport_ne_empty_iff (d l1 l2 : String) (errors : List String) :
    checkReport d l1 l2 errors ≠ "" ↔ 0 < errors.length := by
  unfold checkReport
  by_cases h : errors.length > 0
  · rw [if_pos h]
    refine ⟨fun _ => h, fun _ hc => ?_⟩
    have hd := congrArg String.length hc
    simp only [String.length_append] at hd
    have h29 : ("Checks failed. Release info: " : String).length = 29 := rfl
    have h0 : ("" : String).length = 0 := rfl
    omega
  · rw [if_neg h]
    simp only [ne_eq, not_true_eq_false, false_iff]
    omega

/-- C5: the runner executes every check: the succeeded names are exactly
the names of the checks returning no error, the failure list is exactly
the failing checks' messages each wrapped `check <name> failed: <msg>`
(so with K failures out of N checks there are N−K successes and K
failures), and the diagnostic report is non-empty iff some check failed. -/
theorem c5_runner_aggregation {R : Type} (r : R)
    (checks : List (String × (R → Option String))) (d l1 l2 : String) :
    (runChecks r checks).1 = (checks.filter (fun c => ((c.2) r).isNone)).map Prod.fst
    ∧ (runChecks r checks).2 = checks.filterMap
        (fun c => ((c.2) r).map (fun msg => "check " ++ c.1 ++ " failed: " ++ msg))
    ∧ (runChecks r checks).1.length
        = checks.length - (checks.filter (fun c => ((c.2) r).isSome)).length
    ∧ (runChecks r checks).2.length = (checks.filter (fun c => ((c.2) r).isSome)).length
    ∧ (checkReport d l1 l2 (runChecks r checks).2 ≠ ""
        ↔ 0 < (checks.filter (fun c => ((c.2) r).isSome)).length) := by
  refine ⟨runChecks_fst r checks, runChecks_snd r checks, ?_,
    runChecks_snd_length r checks, ?_⟩
  · have h1 := runChecks_length_add r checks
    have h2 := runChecks_snd_length r checks
    omega
  · rw [checkReport_ne_empty_iff, runChecks_snd_length]

/-! ## Claims about the hub/tag checks -/

/-- A values document whose `_internal_defaults_do_not_set.global` block
holds the given tag and hub. -/
def istioValuesDoc (t h : String) : List (String × Value) :=
  [("_internal_defaults_do_not_set",
    Value.map [("global", Value.map [("tag", Value.str t), ("hub", Value.str h)])])]

/-- C6: the packaging-chart check is semver-gated — whenever the semver
predicate (supplied from outside `src`) rejects the manifest version it
returns success without consulting the chart environment at all — while
the source-tree values check runs its comparisons unconditionally: with
the non-semver version `dev-build` it still resolves the tag and reports
the mismatch. -/
theorem c6_semver_gate :
    (∀ (isValidSemver : String → Bool) (r : ReleaseInfo)
        (chartValues : String → Except String (List (String × Value))),
        isValidSemver r.version = false →
        TestHelmChartVersions isValidSemver r chartValues = .ok)
    ∧ TestHelmVersionsIstio ⟨"dev-build", "docker.io/istio", [], []⟩
        (fun _ => .ok (istioValuesDoc "x" "docker.io/istio"))
        = .fail ("archive tag incorrect: got " ++ "x" ++ " expected " ++ "dev-build") := by
  refine ⟨fun f r env h => by simp [TestHelmChartVersions, h], by decide⟩

/-- C6 (witness): a validator rejecting everything makes the chart check
succeed for a release whose chart environment always fails. -/
theorem c6_semver_gate_witness :
    TestHelmChartVersions (fun _ => false) ⟨"dev-build", "docker.io/istio", [], []⟩
      (fun _ => .error "helm is not even installed") = .ok :=
  c6_semver_gate.1 (fun _ => false) ⟨"dev-build", "docker.io/istio", [], []⟩
    (fun _ => .error "helm is not even installed") rfl

/-- A values document with a top-level `global` block holding the given
tag and hub. -/
def globalHubTagDoc (t h : String) : List (String × Value) :=
  [("global", Value.map [("tag", Value.str t), ("hub", Value.str h)])]

/-- The shared hub/tag validation succeeds precisely when both of its two
independent path lookups — the prefix segments plus the `tag` leaf, and
plus the `hub` leaf, an empty prefix degenerating to the single segment —
resolve to the manifest version and the manifest docker hub. -/
theorem validateHubTag_ok_iff (r : ReleaseInfo) (values : List (String × Value))
    (paths : String) :
    validateHubTag r values paths = .ok ↔
      (GenericMap.Path values (if paths = "" then ["tag"] else splitDot paths ++ ["tag"])
          = .ok (some r.version)
        ∧ GenericMap.Path values (if paths = "" then ["hub"] else splitDot paths ++ ["hub"])
          = .ok (some r.docker)) := by
  simp only [validateHubTag]
  cases h1 : GenericMap.Path values
      (if paths = "" then ["tag"] else splitDot paths ++ ["tag"]) with
  | panic => simp
  | err e => simp
  | ok tag =>
    by_cases ht : tag = some r.version
    · subst ht
      simp only [ne_eq, not_true_eq_false, if_false, true_and, reduceIte]
      cases h2 : GenericMap.Path values
          (if paths = "" then ["hub"] else splitDot paths ++ ["hub"]) with
      | panic => simp
      | err e => simp
      | ok hub =>
        by_cases hh : hub = some r.docker
        · subst hh
          simp
        · simp [hh]
    · simp [ht]

/-- C7: the shared hub/tag validation resolves the two independent paths
`prefix ++ ["tag"]` and `prefix ++ ["hub"]` (an empty prefix degenerating
to the single segments) and succeeds iff the resolved tag is the manifest
version and the resolved hub the manifest docker hub; on the document
`{"global": {"tag": t, "hub": h}}` with prefix `"global"`, manifest
version `1.2.3` and hub `docker.io/istio`, it succeeds for the matching
values and changing either value fails with a message naming that
mismatch. -/
theorem c7_hub_tag_validation :
    (∀ (r : ReleaseInfo) (values : List (String × Value)) (paths : String),
      validateHubTag r values paths = .ok ↔
        (GenericMap.Path values (if paths = "" then ["tag"] else splitDot paths ++ ["tag"])
            = .ok (some r.version)
          ∧ GenericMap.Path values (if paths = "" then ["hub"] else splitDot paths ++ ["hub"])
            = .ok (some r.docker)))
    ∧ validateHubTag ⟨"1.2.3", "docker.io/istio", [], []⟩
        (globalHubTagDoc "1.2.3" "docker.io/istio") "global" = .ok
    ∧ (∀ t, t ≠ "1.2.3" →
        validateHubTag ⟨"1.2.3", "docker.io/istio", [], []⟩
          (globalHubTagDoc t "docker.io/istio") "global"
          = .fail ("archive tag incorrect: got " ++ t ++ " expected " ++ "1.2.3"))
    ∧ (∀ h, h ≠ "docker.io/istio" →
        validateHubTag ⟨"1.2.3", "docker.io/istio", [], []⟩
          (globalHubTagDoc "1.2.3" h) "global"
          = .fail ("hub incorrect: got " ++ h ++ " expected " ++ "docker.io/istio")) := by
  refine ⟨validateHubTag_ok_iff, by decide, fun t ht => ?_, fun h hh => ?_⟩
  · have hp : GenericMap.Path (globalHubTagDoc t "docker.io/istio") ["global", "tag"]
        = .ok (some t) := rfl
    have hpath : (if ("global" : String) = "" then ["tag"]
        else splitDot "global" ++ ["tag"]) = ["global", "tag"] := by decide
    simp only [validateHubTag, hpath, hp, showPathValue]
    rw [if_pos (by simpa using ht)]
  · have hp : GenericMap.Path (globalHubTagDoc "1.2.3" h) ["global", "tag"]
        = .ok (some "1.2.3") := rfl
    have hq : GenericMap.Path (globalHubTagDoc "1.2.3" h) ["global", "hub"]
        = .ok (some h) := rfl
    have hpath : (if ("global" : String) = "" then ["tag"]
        else splitDot "global" ++ ["tag"]) = ["global", "tag"] := by decide
    have hpath2 : (if ("global" : String) = "" then ["hub"]
        else splitDot "global" ++ ["hub"]) = ["global", "hub"] := by decide
    simp only [validateHubTag, hpath, hpath2, hp, hq, showPathValue]
    rw [if_neg (by simp), if_pos (by simpa using hh)]

/-- C7 (witness): a wrong tag `9.9.9` against the manifest version `1.2.3`
produces the tag-mismatch failure. -/
theorem c7_hub_tag_validation_witness :
    validateHubTag ⟨"1.2.3", "docker.io/istio", [], []⟩
      (globalHubTagDoc "9.9.9" "docker.io/istio") "global"
      = .fail ("archive tag incorrect: got " ++ "9.9.9" ++ " expected " ++ "1.2.3") :=
  c7_hub_tag_validation.2.2.1 "9.9.9" (by decide)

/-! ## Claims about the docker image and dashboard checks -/

theorem dockerImagesLoop_ok_iff (files : List String) (suffix : String)
    (imgs : List String) :
    dockerImagesLoop files suffix imgs = .ok ↔
      ∀ i ∈ imgs, (i ++ suffix ++ ".tar.gz") ∈ files := by
  induction imgs with
  | nil => simp [dockerImagesLoop]
  | cons a rest ih =>
    by_cases hc : (a ++ suffix ++ ".tar.gz") ∈ files <;>
      simp [dockerImagesLoop, hc, ih]

theorem dockerArchLoop_ok_iff (files : List String) (archs : List String) :
    dockerArchLoop files archs = .ok ↔
      ∀ plat ∈ archs,
        dockerImagesLoop files (dockerSuffix plat) dockerExpectedImages = .ok := by
  induction archs with
  | nil => simp [dockerArchLoop]
  | cons a rest ih =>
    cases hc : dockerImagesLoop files (dockerSuffix a) dockerExpectedImages with
    | ok => simp [dockerArchLoop, hc, ih]
    | fail m => simp [dockerArchLoop, hc]
    | panic => simp [dockerArchLoop, hc]

theorem dockerImagesLoop_ok_or_fail (files : List String) (suffix : String)
    (imgs : List String) :
    dockerImagesLoop files suffix imgs = .ok
      ∨ ∃ m, dockerImagesLoop files suffix imgs = .fail m := by
  induction imgs with
  | nil => exact Or.inl rfl
  | cons a rest ih =>
    by_cases hc : (a ++ suffix ++ ".tar.gz") ∈ files
    · simpa [dockerImagesLoop, hc] using ih
    · exact Or.inr ⟨"expected docker image " ++ (a ++ suffix ++ ".tar.gz") ++ ", but had "
        ++ renderFound files, by simp [dockerImagesLoop, hc]⟩

theorem dockerArchLoop_ok_or_fail (files : List String) (archs : List String) :
    dockerArchLoop files archs = .ok ∨ ∃ m, dockerArchLoop files archs = .fail m := by
  induction archs with
  | nil => exact Or.inl rfl
  | cons a rest ih =>
    rcases dockerImagesLoop_ok_or_fail files (dockerSuffix a) dockerExpectedImages with
      hc | ⟨m, hc⟩
    · simpa [dockerArchLoop, hc] using ih
    · exact Or.inr ⟨m, by simp [dockerArchLoop, hc]⟩

/-- C8: the image-set check on a readable docker directory succeeds iff
for every declared architecture and every expected basename the tarball
`<basename><suffix>.tar.gz` is present, the suffix empty for the default
arch `amd64` and `-<arch>` otherwise (`dockerSuffix`); when any expected
tarball is absent the outcome is a failure (never a panic). -/
theorem c8_docker_image_set (r : ReleaseInfo) (files : List String) :
    (TestDocker r (.ok files) = .ok ↔
      ∀ plat ∈ r.architectures, ∀ i ∈ dockerExpectedImages,
        (i ++ dockerSuffix plat ++ ".tar.gz") ∈ files)
    ∧ (TestDocker r (.ok files) = .ok ∨ ∃ m, TestDocker r (.ok files) = .fail m) := by
  constructor
  · simp only [TestDocker]
    rw [dockerArchLoop_ok_iff]
    constructor
    · intro hall plat hplat i hi
      exact (dockerImagesLoop_ok_iff files (dockerSuffix plat)
        dockerExpectedImages).mp (hall plat hplat) i hi
    · intro hall plat hplat
      exact (dockerImagesLoop_ok_iff files (dockerSuffix plat)
        dockerExpectedImages).mpr (hall plat hplat)
  · simpa only [TestDocker] using dockerArchLoop_ok_or_fail files r.architectures

theorem listSetEq_iff (a b : List String) :
    listSetEq a b = true ↔ (∀ s, s ∈ a ↔ s ∈ b) := by
  simp only [listSetEq, Bool.and_eq_true, List.all_eq_true, List.contains_eq_any_beq,
    List.any_eq_true, beq_iff_eq]
  constructor
  · rintro ⟨h1, h2⟩ s
    constructor
    · intro hs
      obtain ⟨x, hx, he⟩ := h1 s hs
      exact he ▸ hx
    · intro hs
      obtain ⟨x, hx, he⟩ := h2 s hs
      exact he ▸ hx
  · intro h
    exact ⟨fun s hs => ⟨s, (h s).mp hs, rfl⟩, fun s hs => ⟨s, (h s).mpr hs, rfl⟩⟩

/-- C9: the dashboard parity check on a readable grafana directory
succeeds iff the stems of the files present (names with a `.json` suffix
trimmed) form exactly the set of dashboard names declared in the manifest
— membership coincides in both directions. -/
theorem c9_dashboard_parity (r : ReleaseInfo) (files : List String) :
    TestGrafana r (.ok files) = .ok ↔
      (∀ s, s ∈ files.map trimJsonSuffix ↔ s ∈ r.dashboards) := by
  simp only [TestGrafana]
  rw [← listSetEq_iff]
  split_ifs with h
  · simp [h]
  · simp [h]

